import Mathlib

set_option maxRecDepth 40000

/-!
Verification development for the tg-odesli-bot repository (group_songlink_bot).

The repository ships `group_songlink_bot/config.py` and the integration tests
`tests/integration/test_bot.py`.  The bot module itself (link extractor,
aggregation client, response formatter and message handler) is not part of the
sources; its behaviour is modelled from the specification, pinned to the exact
strings asserted by the integration tests wherever the tests speak.

Side effects (replies, deletions, log lines, lookups) are modelled as an
explicit event trace produced by a pure handler function.
-/

/-! ## Character-level string primitives

The kernel cannot reduce the byte-position based string functions of the
standard library, so the Python string operations are modelled directly on
the code-point list underlying a `String`, matching Python's code-point
semantics. -/

/-- Boolean test that `pat` occurs as a leading segment of `hay`. -/
def startsWithSeq : List Char → List Char → Bool
  | _, [] => true
  | [], _ :: _ => false
  | h :: hs, p :: ps => h == p && startsWithSeq hs ps

/-- Python `s.startswith(pre)`, code-point based. -/
def strStarts (s pre : String) : Bool :=
  startsWithSeq s.data pre.data

/-- Python `s[n:]`, code-point based. -/
def strDrop (s : String) (n : Nat) : String :=
  ⟨s.data.drop n⟩

/-- Python `len(s)`, code-point based. -/
def strLen (s : String) : Nat :=
  s.data.length

/-- Boolean test that `pat` occurs as a contiguous subsequence of `hay`. -/
def containsSeq (pat : List Char) : List Char → Bool
  | [] => startsWithSeq [] pat
  | h :: hs => startsWithSeq (h :: hs) pat || containsSeq pat hs

/-- Substring containment on strings, Python `pat in hay`. -/
def hasSub (hay pat : String) : Bool :=
  containsSeq pat.data hay.data

/-! ## Configuration (`group_songlink_bot/config.py`) -/

/-- A Python attribute value as far as `Config` is concerned: the scalar
string fields, the boolean `DEBUG` flag, and values whose structure the
config logic never inspects (`LOG_CONFIG`, `LOG_RENDERER`, bound methods). -/
inductive PyVal where
  | str : String → PyVal
  | boolV : Bool → PyVal
  | otherV : PyVal
deriving DecidableEq, Repr

/-- Attribute state of a `Config` object: association list from attribute
name to value.  `hasattr`/`setattr`/`getattr` never add or remove keys in
`load_config` (the `hasattr` guard precedes every `setattr`). -/
abbrev ConfigState := List (String × PyVal)

/-- Class-level defaults of `Config` (config.py lines 16-64), together with
the method attributes that `hasattr` also sees. -/
def configDefaults : ConfigState :=
  [("DEBUG", PyVal.boolV false),
   ("BOT_API_TOKEN", PyVal.str ""),
   ("SONGLINK_API_URL", PyVal.str "https://api.song.link/v1-alpha.1/links"),
   ("SONGLINK_API_KEY", PyVal.str ""),
   ("SENTRY_DSN", PyVal.str ""),
   ("LOG_CONFIG", PyVal.otherV),
   ("LOG_RENDERER", PyVal.otherV),
   ("init_logging", PyVal.otherV),
   ("load_config", PyVal.otherV)]

/-- Python `hasattr(config, n)`. -/
def hasAttrB : ConfigState → String → Bool
  | [], _ => false
  | p :: rest, n => p.1 == n || hasAttrB rest n

/-- Python `getattr(config, n)` on the modelled attribute map. -/
def getAttrD : ConfigState → String → PyVal
  | [], _ => PyVal.otherV
  | p :: rest, n => if p.1 == n then p.2 else getAttrD rest n

/-- Python `setattr(config, n, v)`: update the value at key `n`. -/
def setAttrV : ConfigState → String → PyVal → ConfigState
  | [], _, _ => []
  | p :: rest, n, v => (if p.1 == n then (p.1, v) else p) :: setAttrV rest n v

/-- One iteration of the `for env_var_name, value in os.environ.items()`
loop of `Config.load_config` (config.py lines 104-108). -/
def envStep (pfx : String) (c : ConfigState) (nv : String × String) : ConfigState :=
  if strStarts nv.1 pfx && hasAttrB c (strDrop nv.1 (strLen pfx)) then
    setAttrV c (strDrop nv.1 (strLen pfx)) (PyVal.str nv.2)
  else c

/-- The whole environment loop of `Config.load_config`: fold the (post
`dotenv.load_dotenv()`) environment over the class defaults. -/
def mergeEnv (pfx : String) (env : List (String × String)) : ConfigState :=
  env.foldl (envStep pfx) configDefaults

/-- Python truthiness of the modelled attribute values (`if not
config.BOT_API_TOKEN` in config.py line 110). -/
def truthy : PyVal → Bool
  | PyVal.str s => s != ""
  | PyVal.boolV b => b
  | PyVal.otherV => true

/-- `Config.load_config` (config.py lines 92-121): merge prefixed
environment variables over the defaults, then fail unless `BOT_API_TOKEN`
is truthy.  The Sentry initialisation and logging setup are external side
effects outside the modelled core; `dotenv.load_dotenv()` is absorbed into
the `env` argument, which stands for `os.environ` after the `.env` load. -/
def load_config (pfx : String) (env : List (String × String)) : Except String ConfigState :=
  if truthy (getAttrD (mergeEnv pfx env) "BOT_API_TOKEN") then Except.ok (mergeEnv pfx env)
  else
    Except.error ("BOT_API_TOKEN is missing. Please, provide " ++ pfx ++
      "BOT_API_TOKEN either via environment variable or.env file.")

/-! ## Platform registry and link extraction -/

/-- Modelled from the spec: a platform registry entry — identifier, display
label, display-priority rank and URL pattern (host + path shape), the
pattern modelled as a URL stem that recognized links start with. -/
structure Platform where
  key : String
  label : String
  order : Nat
  stem : String
deriving DecidableEq, Repr

def deezerP : Platform :=
  ⟨"deezer", "Deezer", 1, "https://www.deezer.com/"⟩

def googleP : Platform :=
  ⟨"google", "Google Music", 2, "https://play.google.com/music/"⟩

def soundcloudP : Platform :=
  ⟨"soundcloud", "SoundCloud", 3, "https://soundcloud.com/"⟩

/-- Modelled from the spec: the fixed, closed platform registry in display
priority order (Deezer | Google Music | SoundCloud, as listed by the
welcome message asserted in the integration tests). -/
def PLATFORMS : List Platform := [deezerP, googleP, soundcloudP]

/-- Modelled from the spec: recognize one token as a song URL of a
registered platform; tokens of unsupported domains yield `none`. -/
def matchPlatform (tok : String) : Option Platform :=
  PLATFORMS.find? (fun p => strStarts tok p.stem)

/-- Message text, abstracted as its sequence of whitespace-separated
tokens; a song URL occupies one token. -/
abbrev MsgText := List String

/-- Render the tokenized text back to the plain message string. -/
def renderText (t : MsgText) : String :=
  String.intercalate " " t

/-- Modelled from the spec: `extract_links` — scan the text left to right
and return one `(platform, url)` pair per recognized song URL, preserving
duplicates and skipping unsupported URLs.  Total: it never fails. -/
def extract_links : MsgText → List (Platform × String)
  | [] => []
  | t :: ts =>
    match matchPlatform t with
    | some p => (p, t) :: extract_links ts
    | none => extract_links ts

/-! ## Skip mark -/

/-- Modelled from the spec: the fixed sentinel skip-mark substring. -/
def SKIP_MARK : String := "!skip"

/-- The skip-mark check: the sentinel occurs anywhere in the message text. -/
def hasSkipMark (t : MsgText) : Bool :=
  hasSub (renderText t) SKIP_MARK

/-! ## Messages, aggregation results, events -/

/-- Chat kind of the inbound message. -/
inductive ChatKind where
  | groupChat
  | privateChat
deriving DecidableEq, Repr

/-- Inbound chat message: tokenized text, sender user name, chat kind. -/
structure InMessage where
  text : MsgText
  username : String
  chat : ChatKind
deriving DecidableEq, Repr

/-- One per-platform link of an aggregation result. -/
structure SongLink where
  platform : Platform
  url : String
deriving DecidableEq, Repr

/-- Modelled from the spec: the aggregation client's normalized result —
optional title and artist plus the per-platform links (already filtered to
the supported platforms). -/
structure AggregationResult where
  title : Option String
  artist : Option String
  links : List SongLink
deriving DecidableEq, Repr

/-- Observable effects of handling one message, in order of occurrence. -/
inductive Event where
  | log : String → Event
  | lookup : String → Event
  | reply : String → String → Event
  | sendFailed : Event
  | deleteMsg : Event
deriving DecidableEq, Repr

/-! ## Response formatting -/

/-- Display-priority comparison of song links. -/
def linkLE (a b : SongLink) : Prop :=
  a.platform.order ≤ b.platform.order

instance : DecidableRel linkLE :=
  fun a b => Nat.decLe a.platform.order b.platform.order

instance : IsTotal SongLink linkLE :=
  ⟨fun a b => Nat.le_total a.platform.order b.platform.order⟩

instance : IsTrans SongLink linkLE :=
  ⟨fun _ _ _ hab hbc => Nat.le_trans hab hbc⟩

/-- Order one entry's platform links by the fixed display priority. -/
def sortLinks (ls : List SongLink) : List SongLink :=
  List.insertionSort linkLE ls

/-- Render one platform link as an HTML anchor labelled by the platform. -/
def formatLink (sl : SongLink) : String :=
  "<a href=\"" ++ sl.url ++ "\">" ++ sl.platform.label ++ "</a>"

/-- Join one entry's platform links with a vertical-bar separator, in the
fixed display priority order. -/
def formatLinksRow (ls : List SongLink) : String :=
  String.intercalate " | " ((sortLinks ls).map formatLink)

/-- Body of one reply entry: the `artist - title` header line when the
metadata is present, followed by the platform-link row; bare row otherwise. -/
def formatEntryBody (r : AggregationResult) : String :=
  match r.artist, r.title with
  | some a, some t => a ++ " - " ++ t ++ "\n" ++ formatLinksRow r.links
  | _, _ => formatLinksRow r.links

/-- Modelled from the spec and pinned by the integration tests: one numbered
reply entry (the tests assert the `1. ` numbering for single-link messages
in both chat kinds). -/
def formatEntry (i : Nat) (r : AggregationResult) : String :=
  toString i ++ ". " ++ formatEntryBody r

/-- All numbered entries of a reply, one per successful lookup, numbered by
the original link index. -/
def composeEntries (rs : List (Nat × AggregationResult)) : String :=
  String.intercalate "\n" (rs.map (fun ir => formatEntry ir.1 ir.2))

/-- Replace each recognized song URL token by its bracketed 1-based index,
counting from `i`. -/
def replaceLinksFrom (i : Nat) : MsgText → MsgText
  | [] => []
  | t :: ts =>
    match matchPlatform t with
    | some _ => ("[" ++ toString i ++ "]") :: replaceLinksFrom (i + 1) ts
    | none => t :: replaceLinksFrom i ts

/-- Modelled from the spec and pinned by the integration tests: the whole
reply text.  Private chats get the bare entry list; group chats prefix it
with `@sender wrote:` plus the original text with links replaced by their
bracketed indices and a blank line. -/
def composeReply (msg : InMessage) (rs : List (Nat × AggregationResult)) : String :=
  match msg.chat with
  | ChatKind.privateChat => composeEntries rs
  | ChatKind.groupChat =>
    "@" ++ msg.username ++ " wrote: " ++ renderText (replaceLinksFrom 1 msg.text) ++
      "\n\n" ++ composeEntries rs

/-! ## Message handler -/

/-- Number a list from `i` upwards. -/
def enumFrom (i : Nat) : List α → List (Nat × α)
  | [] => []
  | x :: xs => (i, x) :: enumFrom (i + 1) xs

/-- Modelled from the spec: perform one aggregation lookup per extracted
link.  Returns the lookup/failure-log events in link order and the indexed
successful results, joined back by original link index; a failing link is
logged and dropped without aborting its siblings. -/
def doLookups (lookupFn : String → Except String AggregationResult) :
    List (Nat × Platform × String) → List Event × List (Nat × AggregationResult)
  | [] => ([], [])
  | (i, _, url) :: rest =>
    let tail := doLookups lookupFn rest
    match lookupFn url with
    | Except.ok r => (Event.lookup url :: tail.1, (i, r) :: tail.2)
    | Except.error _ =>
      (Event.lookup url :: Event.log ("Cannot resolve URL: " ++ url) :: tail.1, tail.2)

/-- Modelled from the spec: the message handler as a trace producer.
`replyOk` and `deleteOk` model whether the send and delete operations of
the messaging platform succeed.  Pipeline: skip-mark check, link
extraction, per-link lookups, formatted reply, and — in group chats only —
a best-effort delete of the original message after the successful reply. -/
def processMessage (msg : InMessage) (lookupFn : String → Except String AggregationResult)
    (replyOk deleteOk : Bool) : List Event :=
  if hasSkipMark msg.text then [Event.log "Message is skipped due to skip mark"]
  else if (extract_links msg.text).isEmpty then [Event.log "No songs found in message"]
  else
    (doLookups lookupFn (enumFrom 1 (extract_links msg.text))).1 ++
      (if ((doLookups lookupFn (enumFrom 1 (extract_links msg.text))).2).isEmpty then []
       else if replyOk then
         Event.reply
             (composeReply msg (doLookups lookupFn (enumFrom 1 (extract_links msg.text))).2)
             "HTML" ::
           (match msg.chat with
            | ChatKind.privateChat => []
            | ChatKind.groupChat =>
              Event.deleteMsg ::
                (if deleteOk then [] else [Event.log "Cannot delete message"]))
       else [Event.sendFailed])

/-- Modelled from the spec and pinned by the integration tests: the static
usage message, with the platform list rendered from the registry in the
fixed display order. -/
def WELCOME_MSG : String :=
  "Hi!\nI\x27m a SongLink Bot. You can message me a link to a supported " ++
    "music streaming platform and I will respond with links from all the " ++
    "platforms. If you invite me to a group chat I will do the same as well " ++
    "as trying to delete original message (you must promote me to admin to " ++
    "enable this behavior).\nSupported platforms: " ++
    String.intercalate " | " (PLATFORMS.map Platform.label) ++
    ".\nPowered by great <a href=\"https://song.link/\">SongLink</a> " ++
    "(thank you guys!)."

/-- Modelled from the spec: command recognition — `/start` or `/help` at
message start. -/
def isCommandText (t : MsgText) : Bool :=
  match t with
  | tok :: _ => tok == "/start" || tok == "/help"
  | [] => false

/-- Top-level dispatch: the command handler answers `/start` and `/help`
with the static usage message; every other message goes to the message
handler. -/
def handleUpdate (msg : InMessage) (lookupFn : String → Except String AggregationResult)
    (replyOk deleteOk : Bool) : List Event :=
  if isCommandText msg.text then [Event.reply WELCOME_MSG "HTML"]
  else processMessage msg lookupFn replyOk deleteOk

/-! ## Concrete fixtures from the integration tests -/

/-- The aggregation result mocked by the integration tests: title
`Test Title`, artist `Test Artist`, Deezer and Google Music links. -/
def testResult : AggregationResult :=
  ⟨some "Test Title", some "Test Artist",
   [⟨deezerP, "https://www.test.com/test"⟩, ⟨googleP, "https://www.test.com/test"⟩]⟩

/-- Lookup as mocked by the integration tests: the Deezer test URL
resolves, everything else fails. -/
def testLookup (url : String) : Except String AggregationResult :=
  if url == "https://www.deezer.com/track/65760860" then Except.ok testResult
  else Except.error url

/-- The private-chat message of `test_replies_to_private_message`. -/
def privMsg : InMessage :=
  ⟨["checkout", "this", "one:", "https://www.deezer.com/track/65760860"],
   "test_user", ChatKind.privateChat⟩

/-- The group-chat message of `test_replies_to_group_message`. -/
def grpMsg : InMessage :=
  ⟨["checkout", "this", "one:", "https://www.deezer.com/track/65760860"],
   "test_user", ChatKind.groupChat⟩

/-- A two-link group message whose first link fails to resolve. -/
def twoMsg : InMessage :=
  ⟨["https://soundcloud.com/artist/track", "and",
    "https://www.deezer.com/track/65760860"],
   "test_user", ChatKind.groupChat⟩

/-- The skip-marked message of `test_skips_message_with_skip_mark`. -/
def skipMsg : InMessage :=
  ⟨["test", "message", SKIP_MARK], "test_user", ChatKind.groupChat⟩

/-! ## Helper lemmas -/

theorem doLookups_events_shape (f : String → Except String AggregationResult)
    (l : List (Nat × Platform × String)) :
    ∀ e ∈ (doLookups f l).1, (∃ u, e = Event.lookup u) ∨ ∃ s, e = Event.log s := by
  induction l with
  | nil => intro e he; cases he
  | cons x rest ih =>
    obtain ⟨i, p, url⟩ := x
    intro e he
    simp only [doLookups] at he
    cases hf : f url with
    | ok r =>
      rw [hf] at he
      simp only [List.mem_cons] at he
      rcases he with he | he
      · exact Or.inl ⟨url, he⟩
      · exact ih e he
    | error err =>
      rw [hf] at he
      simp only [List.mem_cons] at he
      rcases he with he | he | he
      · exact Or.inl ⟨url, he⟩
      · exact Or.inr ⟨_, he⟩
      · exact ih e he

theorem doLookups_no_reply (f : String → Except String AggregationResult)
    (l : List (Nat × Platform × String)) (t pm : String) :
    Event.reply t pm ∉ (doLookups f l).1 := by
  intro hmem
  rcases doLookups_events_shape f l _ hmem with ⟨u, hu⟩ | ⟨s, hs⟩
  · simp at hu
  · simp at hs

theorem doLookups_no_delete (f : String → Except String AggregationResult)
    (l : List (Nat × Platform × String)) :
    Event.deleteMsg ∉ (doLookups f l).1 := by
  intro hmem
  rcases doLookups_events_shape f l _ hmem with ⟨u, hu⟩ | ⟨s, hs⟩
  · simp at hu
  · simp at hs

theorem doLookups_lookup_urls (f : String → Except String AggregationResult)
    (l : List (Nat × Platform × String)) :
    (doLookups f l).1.filterMap
        (fun e => match e with | Event.lookup u => some u | _ => none) =
      l.map (fun x => x.2.2) := by
  induction l with
  | nil => rfl
  | cons x rest ih =>
    obtain ⟨i, p, url⟩ := x
    simp only [doLookups]
    cases hf : f url <;> simp [List.filterMap_cons, ih]

theorem doLookups_successes (f : String → Except String AggregationResult)
    (l : List (Nat × Platform × String)) :
    (doLookups f l).2 =
      l.filterMap
        (fun x => match f x.2.2 with
                  | Except.ok r => some (x.1, r)
                  | Except.error _ => none) := by
  induction l with
  | nil => rfl
  | cons x rest ih =>
    obtain ⟨i, p, url⟩ := x
    simp only [doLookups]
    cases hf : f url <;> simp [List.filterMap_cons, hf, ih]

theorem doLookups_failure_logged (f : String → Except String AggregationResult)
    (l : List (Nat × Platform × String)) (x : Nat × Platform × String)
    (hx : x ∈ l) (err : String) (he : f x.2.2 = Except.error err) :
    Event.log ("Cannot resolve URL: " ++ x.2.2) ∈ (doLookups f l).1 := by
  induction l with
  | nil => cases hx
  | cons y rest ih =>
    obtain ⟨i, p, url⟩ := y
    simp only [List.mem_cons] at hx
    rcases hx with hx | hx
    · subst hx
      simp only [doLookups]
      rw [he]
      exact List.mem_cons_of_mem _ (List.mem_cons_self _ _)
    · simp only [doLookups]
      cases hf : f url with
      | ok r => exact List.mem_cons_of_mem _ (ih hx)
      | error e2 =>
        exact List.mem_cons_of_mem _ (List.mem_cons_of_mem _ (ih hx))

theorem doLookups_successes_fst_sublist (f : String → Except String AggregationResult)
    (l : List (Nat × Platform × String)) :
    List.Sublist ((doLookups f l).2.map Prod.fst) (l.map Prod.fst) := by
  induction l with
  | nil => exact List.Sublist.refl _
  | cons x rest ih =>
    obtain ⟨i, p, url⟩ := x
    simp only [doLookups]
    cases hf : f url with
    | ok r => exact List.Sublist.cons₂ _ ih
    | error err => exact List.Sublist.cons _ ih

theorem enumFrom_map_snd (i : Nat) (l : List α) : (enumFrom i l).map Prod.snd = l := by
  induction l generalizing i with
  | nil => rfl
  | cons x xs ih => simp [enumFrom, ih]

theorem enumFrom_mem_fst_le (i : Nat) (l : List α) :
    ∀ p ∈ enumFrom i l, i ≤ p.1 := by
  induction l generalizing i with
  | nil => intro p hp; cases hp
  | cons x xs ih =>
    intro p hp
    simp only [enumFrom, List.mem_cons] at hp
    rcases hp with hp | hp
    · simp [hp]
    · exact Nat.le_of_succ_le (ih (i + 1) p hp)

theorem enumFrom_fst_pairwise (i : Nat) (l : List α) :
    List.Pairwise (fun a b => a < b) ((enumFrom i l).map Prod.fst) := by
  induction l generalizing i with
  | nil => exact List.Pairwise.nil
  | cons x xs ih =>
    simp only [enumFrom, List.map_cons]
    refine List.Pairwise.cons ?_ (ih (i + 1))
    intro j hj
    simp only [List.mem_map] at hj
    obtain ⟨p, hp, rfl⟩ := hj
    exact Nat.lt_of_succ_le (enumFrom_mem_fst_le (i + 1) xs p hp)

theorem enumFrom_mem_of_mem (l : List α) (a : α) (ha : a ∈ l) (i : Nat) :
    ∃ j, (j, a) ∈ enumFrom i l := by
  induction l generalizing i with
  | nil => cases ha
  | cons x xs ih =>
    simp only [List.mem_cons] at ha
    rcases ha with ha | ha
    · exact ⟨i, by simp [enumFrom, ha]⟩
    · obtain ⟨j, hj⟩ := ih ha (i + 1)
      exact ⟨j, List.mem_cons_of_mem _ hj⟩

theorem enumFrom_mem_snd (l : List α) (p : Nat × α) (i : Nat)
    (hp : p ∈ enumFrom i l) : p.2 ∈ l := by
  induction l generalizing i with
  | nil => cases hp
  | cons x xs ih =>
    simp only [enumFrom, List.mem_cons] at hp
    rcases hp with hp | hp
    · simp [hp]
    · exact List.mem_cons_of_mem _ (ih (i + 1) hp)

theorem hasAttrB_setAttrV (c : ConfigState) (n m : String) (v : PyVal) :
    hasAttrB (setAttrV c n v) m = hasAttrB c m := by
  induction c with
  | nil => rfl
  | cons p rest ih =>
    simp only [setAttrV, hasAttrB]
    have h1 : (if (p.1 == n) = true then (p.1, v) else p).1 = p.1 := by
      split <;> rfl
    rw [h1, ih]

theorem hasAttrB_envStep (pfx : String) (c : ConfigState) (nv : String × String)
    (m : String) : hasAttrB (envStep pfx c nv) m = hasAttrB c m := by
  unfold envStep
  by_cases h : (strStarts nv.1 pfx && hasAttrB c (strDrop nv.1 (strLen pfx))) = true
  · rw [if_pos h, hasAttrB_setAttrV]
  · rw [if_neg h]

theorem getAttrD_setAttrV_ne (c : ConfigState) (n m : String) (v : PyVal)
    (hnm : m ≠ n) : getAttrD (setAttrV c n v) m = getAttrD c m := by
  induction c with
  | nil => rfl
  | cons p rest ih =>
    by_cases hpn : (p.1 == n) = true
    · have hpm : (p.1 == m) = false := by
        rw [beq_eq_false_iff_ne]
        intro hh
        exact hnm (hh ▸ eq_of_beq hpn)
      simp [setAttrV, getAttrD, hpn, hpm, ih]
    · by_cases hpm : (p.1 == m) = true
      · simp [setAttrV, getAttrD, hpn, hpm]
      · simp [setAttrV, getAttrD, hpn, hpm, ih]

theorem getAttrD_setAttrV_self (c : ConfigState) (n : String) (v : PyVal)
    (hc : hasAttrB c n = true) : getAttrD (setAttrV c n v) n = v := by
  induction c with
  | nil => simp [hasAttrB] at hc
  | cons p rest ih =>
    simp only [hasAttrB, Bool.or_eq_true] at hc
    by_cases hpn : (p.1 == n) = true
    · simp [setAttrV, getAttrD, hpn]
    · rcases hc with hc | hc
      · exact absurd hc hpn
      · simp [setAttrV, getAttrD, hpn, ih hc]

theorem getAttrD_envStep_str (pfx : String) (c : ConfigState) (nv : String × String)
    (k : String) (s : String) (hk : getAttrD c k = PyVal.str s) :
    ∃ s2, getAttrD (envStep pfx c nv) k = PyVal.str s2 := by
  unfold envStep
  by_cases h : (strStarts nv.1 pfx && hasAttrB c (strDrop nv.1 (strLen pfx))) = true
  · rw [if_pos h]
    rw [Bool.and_eq_true] at h
    by_cases hkn : k = strDrop nv.1 (strLen pfx)
    · rw [hkn]
      exact ⟨nv.2, getAttrD_setAttrV_self c _ (PyVal.str nv.2) h.2⟩
    · exact ⟨s, by rw [getAttrD_setAttrV_ne c _ k _ hkn]; exact hk⟩
  · rw [if_neg h]
    exact ⟨s, hk⟩

theorem getAttrD_foldl_str (pfx : String) (env : List (String × String)) :
    ∀ c : ConfigState, ∀ s : String, getAttrD c "BOT_API_TOKEN" = PyVal.str s →
      ∃ s2, getAttrD (env.foldl (envStep pfx) c) "BOT_API_TOKEN" = PyVal.str s2 := by
  induction env with
  | nil => intro c s hc; exact ⟨s, hc⟩
  | cons nv rest ih =>
    intro c s hc
    obtain ⟨s1, hs1⟩ := getAttrD_envStep_str pfx c nv "BOT_API_TOKEN" s hc
    exact ih (envStep pfx c nv) s1 hs1

theorem foldl_envStep_filter (pfx : String) (env : List (String × String)) :
    ∀ c : ConfigState, (∀ n, hasAttrB c n = hasAttrB configDefaults n) →
      env.foldl (envStep pfx) c =
        (env.filter (fun nv =>
          strStarts nv.1 pfx && hasAttrB configDefaults (strDrop nv.1 (strLen pfx)))).foldl
          (envStep pfx) c := by
  induction env with
  | nil => intro c _; rfl
  | cons nv rest ih =>
    intro c hkeys
    simp only [List.foldl_cons, List.filter_cons]
    by_cases hcond :
        (strStarts nv.1 pfx && hasAttrB configDefaults (strDrop nv.1 (strLen pfx))) = true
    · rw [if_pos hcond]
      simp only [List.foldl_cons]
      exact ih (envStep pfx c nv) (fun n => (hasAttrB_envStep pfx c nv n).trans (hkeys n))
    · rw [if_neg hcond]
      have hstep : envStep pfx c nv = c := by
        unfold envStep
        rw [if_neg (by rw [hkeys (strDrop nv.1 (strLen pfx))]; exact hcond)]
      rw [hstep]
      exact ih c hkeys

theorem getAttrD_foldl_unmatched (pfx : String) (a : String) (env : List (String × String)) :
    ∀ c : ConfigState,
      (∀ nv ∈ env, ¬(strStarts nv.1 pfx = true ∧ strDrop nv.1 (strLen pfx) = a)) →
      getAttrD (env.foldl (envStep pfx) c) a = getAttrD c a := by
  induction env with
  | nil => intro c _; rfl
  | cons nv rest ih =>
    intro c hno
    simp only [List.foldl_cons]
    have hstep : getAttrD (envStep pfx c nv) a = getAttrD c a := by
      unfold envStep
      by_cases hcond :
          (strStarts nv.1 pfx && hasAttrB c (strDrop nv.1 (strLen pfx))) = true
      · rw [if_pos hcond]
        rw [Bool.and_eq_true] at hcond
        have hna : strDrop nv.1 (strLen pfx) ≠ a := by
          intro hh
          exact hno nv (List.mem_cons_self _ _) ⟨hcond.1, hh⟩
        exact getAttrD_setAttrV_ne c _ a _ (fun hh => hna hh.symm)
      · rw [if_neg hcond]
    rw [ih (envStep pfx c nv) (fun x hx => hno x (List.mem_cons_of_mem _ hx)), hstep]

theorem processMessage_skip_eq (msg : InMessage) (f : String → Except String AggregationResult)
    (rOk dOk : Bool) (h : hasSkipMark msg.text = true) :
    processMessage msg f rOk dOk = [Event.log "Message is skipped due to skip mark"] := by
  unfold processMessage
  rw [if_pos h]

theorem processMessage_nolinks_eq (msg : InMessage) (f : String → Except String AggregationResult)
    (rOk dOk : Bool) (h1 : hasSkipMark msg.text = false)
    (h2 : (extract_links msg.text).isEmpty = true) :
    processMessage msg f rOk dOk = [Event.log "No songs found in message"] := by
  unfold processMessage
  rw [if_neg (by rw [h1]; exact Bool.false_ne_true), if_pos h2]

theorem processMessage_eq_of_links (msg : InMessage) (f : String → Except String AggregationResult)
    (rOk dOk : Bool) (h1 : hasSkipMark msg.text = false)
    (h2 : (extract_links msg.text).isEmpty = false) :
    processMessage msg f rOk dOk =
      (doLookups f (enumFrom 1 (extract_links msg.text))).1 ++
        (if ((doLookups f (enumFrom 1 (extract_links msg.text))).2).isEmpty then []
         else if rOk then
           Event.reply
               (composeReply msg (doLookups f (enumFrom 1 (extract_links msg.text))).2)
               "HTML" ::
             (match msg.chat with
              | ChatKind.privateChat => []
              | ChatKind.groupChat =>
                Event.deleteMsg ::
                  (if dOk then [] else [Event.log "Cannot delete message"]))
         else [Event.sendFailed]) := by
  unfold processMessage
  rw [if_neg (by rw [h1]; exact Bool.false_ne_true),
      if_neg (by rw [h2]; exact Bool.false_ne_true)]

theorem processMessage_reply_mem (msg : InMessage) (f : String → Except String AggregationResult)
    (rOk dOk : Bool) (t pm : String) :
    Event.reply t pm ∈ processMessage msg f rOk dOk ↔
      hasSkipMark msg.text = false ∧
      (extract_links msg.text).isEmpty = false ∧
      ((doLookups f (enumFrom 1 (extract_links msg.text))).2).isEmpty = false ∧
      rOk = true ∧
      t = composeReply msg (doLookups f (enumFrom 1 (extract_links msg.text))).2 ∧
      pm = "HTML" := by
  by_cases hskip : hasSkipMark msg.text = true
  · rw [processMessage_skip_eq msg f rOk dOk hskip]
    simp [hskip]
  · have hskip2 : hasSkipMark msg.text = false := by simpa using hskip
    by_cases hni : (extract_links msg.text).isEmpty = true
    · rw [processMessage_nolinks_eq msg f rOk dOk hskip2 hni]
      simp [hni]
    · have hni2 : (extract_links msg.text).isEmpty = false := by simpa using hni
      rw [processMessage_eq_of_links msg f rOk dOk hskip2 hni2]
      have hnr := doLookups_no_reply f (enumFrom 1 (extract_links msg.text)) t pm
      by_cases hS : ((doLookups f (enumFrom 1 (extract_links msg.text))).2).isEmpty = true
      · rw [if_pos hS]
        simp [hnr, hskip2, hni2, hS]
      · have hS2 : ((doLookups f (enumFrom 1 (extract_links msg.text))).2).isEmpty = false := by
          simpa using hS
        rw [if_neg (by rw [hS2]; exact Bool.false_ne_true)]
        cases hrOk : rOk with
        | false =>
          simp [List.mem_append, hnr]
        | true =>
          cases hc : msg.chat with
          | privateChat =>
            simp [List.mem_append, hnr, hskip2, hni2, hS2, and_comm]
          | groupChat =>
            cases hdOk : dOk with
            | true => simp [List.mem_append, hnr, hskip2, hni2, hS2, and_comm]
            | false => simp [List.mem_append, hnr, hskip2, hni2, hS2, and_comm]

theorem processMessage_delete_mem (msg : InMessage) (f : String → Except String AggregationResult)
    (rOk dOk : Bool) :
    Event.deleteMsg ∈ processMessage msg f rOk dOk ↔
      hasSkipMark msg.text = false ∧
      (extract_links msg.text).isEmpty = false ∧
      ((doLookups f (enumFrom 1 (extract_links msg.text))).2).isEmpty = false ∧
      rOk = true ∧
      msg.chat = ChatKind.groupChat := by
  by_cases hskip : hasSkipMark msg.text = true
  · rw [processMessage_skip_eq msg f rOk dOk hskip]
    simp [hskip]
  · have hskip2 : hasSkipMark msg.text = false := by simpa using hskip
    by_cases hni : (extract_links msg.text).isEmpty = true
    · rw [processMessage_nolinks_eq msg f rOk dOk hskip2 hni]
      simp [hni]
    · have hni2 : (extract_links msg.text).isEmpty = false := by simpa using hni
      rw [processMessage_eq_of_links msg f rOk dOk hskip2 hni2]
      have hnd := doLookups_no_delete f (enumFrom 1 (extract_links msg.text))
      by_cases hS : ((doLookups f (enumFrom 1 (extract_links msg.text))).2).isEmpty = true
      · rw [if_pos hS]
        simp [hnd, hskip2, hni2, hS]
      · have hS2 : ((doLookups f (enumFrom 1 (extract_links msg.text))).2).isEmpty = false := by
          simpa using hS
        rw [if_neg (by rw [hS2]; exact Bool.false_ne_true)]
        cases hrOk : rOk with
        | false =>
          simp [List.mem_append, hnd]
        | true =>
          cases hc : msg.chat with
          | privateChat =>
            simp [List.mem_append, hnd, hskip2, hni2, hS2, hc]
          | groupChat =>
            cases hdOk : dOk with
            | true => simp [List.mem_append, hnd, hskip2, hni2, hS2, hc]
            | false => simp [List.mem_append, hnd, hskip2, hni2, hS2, hc]

/-! ## Claim theorems -/

/-- C8: `Config.load_config` returns a config object exactly when
`BOT_API_TOKEN` is non-empty after merging the prefixed environment
variables over the defaults; if `BOT_API_TOKEN` is still empty it raises an
exception and no config object is produced. -/
theorem load_config_ok_iff_token_nonempty (pfx : String) (env : List (String × String)) :
    ∃ s : String,
      getAttrD (mergeEnv pfx env) "BOT_API_TOKEN" = PyVal.str s ∧
      (load_config pfx env = Except.ok (mergeEnv pfx env) ↔ s ≠ "") ∧
      (s = "" → ∀ c, load_config pfx env ≠ Except.ok c) := by
  obtain ⟨s, hs⟩ := getAttrD_foldl_str pfx env configDefaults "" (by rfl)
  have hs2 : getAttrD (mergeEnv pfx env) "BOT_API_TOKEN" = PyVal.str s := hs
  refine ⟨s, hs2, ?_, ?_⟩
  · unfold load_config
    rw [hs2]
    by_cases hse : s = ""
    · subst hse
      simp [truthy]
    · simp [truthy, hse]
  · intro hse c hok
    unfold load_config at hok
    rw [hs2, hse] at hok
    simp [truthy] at hok

/-- C8 witness: instantiation at a concrete one-variable environment. -/
theorem load_config_ok_iff_token_nonempty_witness :
    ∃ s : String,
      getAttrD (mergeEnv "GROUP_SONGLINK_BOT_"
          [("GROUP_SONGLINK_BOT_BOT_API_TOKEN", "token-value")]) "BOT_API_TOKEN" =
        PyVal.str s ∧
      (load_config "GROUP_SONGLINK_BOT_" [("GROUP_SONGLINK_BOT_BOT_API_TOKEN", "token-value")] =
          Except.ok (mergeEnv "GROUP_SONGLINK_BOT_"
            [("GROUP_SONGLINK_BOT_BOT_API_TOKEN", "token-value")]) ↔
        s ≠ "") ∧
      (s = "" → ∀ c,
        load_config "GROUP_SONGLINK_BOT_" [("GROUP_SONGLINK_BOT_BOT_API_TOKEN", "token-value")] ≠
          Except.ok c) :=
  load_config_ok_iff_token_nonempty "GROUP_SONGLINK_BOT_"
    [("GROUP_SONGLINK_BOT_BOT_API_TOKEN", "token-value")]

/-- C10: `Config.load_config` copies an environment variable into the config
only when its name starts with the prefix and the remainder names an
existing `Config` attribute (the merge result only depends on such
variables); every attribute with no matching prefixed variable keeps its
default value. -/
theorem config_env_attr_frame (pfx : String) (env : List (String × String)) :
    mergeEnv pfx env =
      mergeEnv pfx (env.filter (fun nv =>
        strStarts nv.1 pfx && hasAttrB configDefaults (strDrop nv.1 (strLen pfx)))) ∧
    ∀ a : String,
      (∀ nv ∈ env, ¬(strStarts nv.1 pfx = true ∧ strDrop nv.1 (strLen pfx) = a)) →
      getAttrD (mergeEnv pfx env) a = getAttrD configDefaults a := by
  constructor
  · exact foldl_envStep_filter pfx env configDefaults (fun n => rfl)
  · intro a h
    exact getAttrD_foldl_unmatched pfx a env configDefaults h

/-- C10 witness: with only a `DEBUG` variable and an unprefixed variable in
the environment, `BOT_API_TOKEN` keeps its default. -/
theorem config_env_attr_frame_witness :
    getAttrD (mergeEnv "GROUP_SONGLINK_BOT_"
        [("GROUP_SONGLINK_BOT_DEBUG", "1"), ("HOME", "/root")]) "BOT_API_TOKEN" =
      getAttrD configDefaults "BOT_API_TOKEN" :=
  (config_env_attr_frame "GROUP_SONGLINK_BOT_"
    [("GROUP_SONGLINK_BOT_DEBUG", "1"), ("HOME", "/root")]).2 "BOT_API_TOKEN" (by decide)

/-- C5: `extract_links` is total and returns exactly the recognized-platform
URLs of the text, in left-to-right order, preserving duplicates and
ignoring unsupported URLs; with no recognized URL it returns the empty
sequence. -/
theorem extract_links_total_ordered (toks : MsgText) :
    (extract_links toks).length =
      (toks.filter (fun t => (matchPlatform t).isSome)).length ∧
    (extract_links toks).map Prod.snd = toks.filter (fun t => (matchPlatform t).isSome) ∧
    (∀ pu ∈ extract_links toks, matchPlatform pu.2 = some pu.1) ∧
    ((∀ t ∈ toks, matchPlatform t = none) → extract_links toks = []) := by
  induction toks with
  | nil =>
    exact ⟨rfl, rfl, fun pu hpu => absurd hpu (List.not_mem_nil _), fun _ => rfl⟩
  | cons t ts ih =>
    obtain ⟨ih1, ih2, ih3, ih4⟩ := ih
    cases hm : matchPlatform t with
    | some p =>
      refine ⟨?_, ?_, ?_, ?_⟩
      · simp [extract_links, hm, List.filter_cons, ih1]
      · simp [extract_links, hm, List.filter_cons, ih2]
      · intro pu hpu
        simp only [extract_links, hm, List.mem_cons] at hpu
        rcases hpu with hpu | hpu
        · rw [hpu]
          exact hm
        · exact ih3 pu hpu
      · intro hall
        exact absurd (hall t (List.mem_cons_self _ _)) (by simp [hm])
    | none =>
      refine ⟨?_, ?_, ?_, ?_⟩
      · simp [extract_links, hm, List.filter_cons, ih1]
      · simp [extract_links, hm, List.filter_cons, ih2]
      · intro pu hpu
        simp only [extract_links, hm] at hpu
        exact ih3 pu hpu
      · intro hall
        simp only [extract_links, hm]
        exact ih4 (fun x hx => hall x (List.mem_cons_of_mem _ hx))

/-- C5 witness: a recognized Deezer URL is extracted with its platform, and
a text without song links yields the empty sequence. -/
theorem extract_links_witness :
    matchPlatform "https://www.deezer.com/track/65760860" = some deezerP ∧
    extract_links ["test", "message", "without", "song", "links"] = [] := by
  have h1 := extract_links_total_ordered twoMsg.text
  have h2 := extract_links_total_ordered ["test", "message", "without", "song", "links"]
  exact ⟨h1.2.2.1 (deezerP, "https://www.deezer.com/track/65760860") (by decide),
         h2.2.2.2 (by decide)⟩

/-- C4: a message whose text contains the skip mark anywhere is skipped
before any extraction work: the whole trace is the single
`Message is skipped due to skip mark` log line — no lookups, no reply, no
deletion. -/
theorem skip_mark_short_circuits (msg : InMessage)
    (f : String → Except String AggregationResult) (rOk dOk : Bool)
    (h : hasSkipMark msg.text = true) :
    processMessage msg f rOk dOk = [Event.log "Message is skipped due to skip mark"] :=
  processMessage_skip_eq msg f rOk dOk h

/-- C4 witness: the skip-marked test message produces only the skip log. -/
theorem skip_mark_short_circuits_witness :
    processMessage skipMsg testLookup true true =
      [Event.log "Message is skipped due to skip mark"] :=
  skip_mark_short_circuits skipMsg testLookup true true (by decide)

/-- C1 counterexample: the private-chat single-link test scenario.  The
message contains exactly one recognized song link, yet the reply does not
omit the numbering prefix: it begins with `1. ` (exactly as asserted by
`test_replies_to_private_message`). -/
theorem private_single_link_numbering_counterexample :
    extract_links privMsg.text = [(deezerP, "https://www.deezer.com/track/65760860")] ∧
    privMsg.chat = ChatKind.privateChat ∧
    processMessage privMsg testLookup true true =
      [Event.lookup "https://www.deezer.com/track/65760860",
       Event.reply
         "1. Test Artist - Test Title\n<a href=\"https://www.test.com/test\">Deezer</a> | <a href=\"https://www.test.com/test\">Google Music</a>"
         "HTML"] ∧
    strStarts
      "1. Test Artist - Test Title\n<a href=\"https://www.test.com/test\">Deezer</a> | <a href=\"https://www.test.com/test\">Google Music</a>"
      "1. " = true := by
  exact ⟨by decide, rfl, by decide, by decide⟩

/-- C1 (amended): for every private-chat message containing exactly one
recognized song link whose lookup succeeds, the reply carries the `1. `
numbering prefix — the numbering is not omitted in the single-link case. -/
theorem private_single_link_reply_numbered (msg : InMessage)
    (f : String → Except String AggregationResult) (p : Platform) (url : String)
    (r : AggregationResult) (dOk : Bool)
    (hchat : msg.chat = ChatKind.privateChat)
    (hskip : hasSkipMark msg.text = false)
    (hlinks : extract_links msg.text = [(p, url)])
    (hlook : f url = Except.ok r) :
    processMessage msg f true dOk =
      [Event.lookup url, Event.reply (formatEntry 1 r) "HTML"] ∧
    ∃ rest, formatEntry 1 r = "1. " ++ rest := by
  constructor
  · have hni : (extract_links msg.text).isEmpty = false := by rw [hlinks]; rfl
    rw [processMessage_eq_of_links msg f true dOk hskip hni, hlinks]
    simp only [enumFrom, doLookups, hlook, composeReply, hchat, composeEntries]
    rfl
  · exact ⟨formatEntryBody r, rfl⟩

/-- C1 witness: the amended claim at the private-chat test fixture. -/
theorem private_single_link_reply_numbered_witness :
    processMessage privMsg testLookup true true =
      [Event.lookup "https://www.deezer.com/track/65760860",
       Event.reply (formatEntry 1 testResult) "HTML"] ∧
    ∃ rest, formatEntry 1 testResult = "1. " ++ rest :=
  private_single_link_reply_numbered privMsg testLookup deezerP
    "https://www.deezer.com/track/65760860" testResult true rfl (by decide) (by decide) rfl

/-- C7: the `/start` and `/help` commands receive, in every chat kind, the
identical static usage reply and nothing else; the usage message lists the
supported platforms in the fixed priority display order joined by a
vertical-bar separator. -/
theorem command_reply_static (ck : ChatKind) (user : String) (cmd : String)
    (f : String → Except String AggregationResult) (rOk dOk : Bool)
    (hcmd : cmd = "/start" ∨ cmd = "/help") :
    handleUpdate ⟨[cmd], user, ck⟩ f rOk dOk = [Event.reply WELCOME_MSG "HTML"] ∧
    WELCOME_MSG =
      "Hi!\nI\x27m a SongLink Bot. You can message me a link to a supported music streaming platform and I will respond with links from all the platforms. If you invite me to a group chat I will do the same as well as trying to delete original message (you must promote me to admin to enable this behavior).\nSupported platforms: Deezer | Google Music | SoundCloud.\nPowered by great <a href=\"https://song.link/\">SongLink</a> (thank you guys!)." := by
  constructor
  · rcases hcmd with h | h <;> rw [h] <;> rfl
  · rfl

/-- C7 witness: the `/help` command in a group chat. -/
theorem command_reply_static_witness :
    handleUpdate ⟨["/help"], "test_user", ChatKind.groupChat⟩ testLookup true true =
      [Event.reply WELCOME_MSG "HTML"] ∧
    WELCOME_MSG =
      "Hi!\nI\x27m a SongLink Bot. You can message me a link to a supported music streaming platform and I will respond with links from all the platforms. If you invite me to a group chat I will do the same as well as trying to delete original message (you must promote me to admin to enable this behavior).\nSupported platforms: Deezer | Google Music | SoundCloud.\nPowered by great <a href=\"https://song.link/\">SongLink</a> (thank you guys!)." :=
  command_reply_static ChatKind.groupChat "test_user" "/help" testLookup true true (Or.inr rfl)

/-- C2: deletion of the original message is attempted if and only if the
chat kind is group and a reply was successfully sent; the delete attempt
comes after the reply in the trace; a delete failure is non-fatal — the
`Cannot delete message` log is emitted and the already-sent reply stands;
deletion is never attempted in private chats. -/
theorem delete_iff_group_and_replied (msg : InMessage)
    (f : String → Except String AggregationResult) (rOk dOk : Bool) :
    (Event.deleteMsg ∈ processMessage msg f rOk dOk ↔
      msg.chat = ChatKind.groupChat ∧
        ∃ t pm, Event.reply t pm ∈ processMessage msg f rOk dOk) ∧
    (Event.deleteMsg ∈ processMessage msg f rOk dOk →
      ∃ pre post t pm,
        processMessage msg f rOk dOk = pre ++ Event.reply t pm :: post ∧
          Event.deleteMsg ∈ post) ∧
    (Event.deleteMsg ∈ processMessage msg f rOk dOk → dOk = false →
      Event.log "Cannot delete message" ∈ processMessage msg f rOk dOk) := by
  refine ⟨⟨?_, ?_⟩, ?_, ?_⟩
  · intro hd
    obtain ⟨h1, h2, h3, h4, h5⟩ := (processMessage_delete_mem msg f rOk dOk).mp hd
    refine ⟨h5, composeReply msg (doLookups f (enumFrom 1 (extract_links msg.text))).2,
      "HTML", ?_⟩
    exact (processMessage_reply_mem msg f rOk dOk _ _).mpr ⟨h1, h2, h3, h4, rfl, rfl⟩
  · rintro ⟨hg, t, pm, hr⟩
    obtain ⟨h1, h2, h3, h4, _, _⟩ := (processMessage_reply_mem msg f rOk dOk t pm).mp hr
    exact (processMessage_delete_mem msg f rOk dOk).mpr ⟨h1, h2, h3, h4, hg⟩
  · intro hd
    obtain ⟨h1, h2, h3, h4, h5⟩ := (processMessage_delete_mem msg f rOk dOk).mp hd
    refine ⟨(doLookups f (enumFrom 1 (extract_links msg.text))).1,
            Event.deleteMsg :: (if dOk then [] else [Event.log "Cannot delete message"]),
            composeReply msg (doLookups f (enumFrom 1 (extract_links msg.text))).2,
            "HTML", ?_, List.mem_cons_self _ _⟩
    rw [processMessage_eq_of_links msg f rOk dOk h1 h2,
        if_neg (by rw [h3]; exact Bool.false_ne_true), if_pos h4, h5]
  · intro hd hdOk
    obtain ⟨h1, h2, h3, h4, h5⟩ := (processMessage_delete_mem msg f rOk dOk).mp hd
    rw [processMessage_eq_of_links msg f rOk dOk h1 h2,
        if_neg (by rw [h3]; exact Bool.false_ne_true), if_pos h4, h5, hdOk]
    refine List.mem_append_right _ ?_
    simp

/-- C2 witness: the group-chat delete-failure test fixture — deletion is
attempted, the failure is logged, and the reply is still in the trace. -/
theorem delete_iff_group_and_replied_witness :
    Event.deleteMsg ∈ processMessage grpMsg testLookup true false ∧
    Event.log "Cannot delete message" ∈ processMessage grpMsg testLookup true false ∧
    (∃ t pm, Event.reply t pm ∈ processMessage grpMsg testLookup true false) := by
  have h := delete_iff_group_and_replied grpMsg testLookup true false
  have hd : Event.deleteMsg ∈ processMessage grpMsg testLookup true false := by decide
  exact ⟨hd, h.2.2 hd rfl, (h.1.mp hd).2⟩

/-- C9: every reply sent by the bot — command usage replies and song-link
replies alike, in both chat kinds — carries parse mode `HTML`. -/
theorem replies_use_html (msg : InMessage)
    (f : String → Except String AggregationResult) (rOk dOk : Bool) (t pm : String)
    (h : Event.reply t pm ∈ handleUpdate msg f rOk dOk) : pm = "HTML" := by
  unfold handleUpdate at h
  by_cases hc : isCommandText msg.text = true
  · rw [if_pos hc] at h
    simp at h
    exact h.2
  · rw [if_neg hc] at h
    exact ((processMessage_reply_mem msg f rOk dOk t pm).mp h).2.2.2.2.2

/-- C9 witness: the private-chat test reply is sent with parse mode HTML. -/
theorem replies_use_html_witness : "HTML" = "HTML" :=
  replies_use_html privMsg testLookup true true
    "1. Test Artist - Test Title\n<a href=\"https://www.test.com/test\">Deezer</a> | <a href=\"https://www.test.com/test\">Google Music</a>"
    "HTML" (by decide)

theorem enumFrom_map_sndsnd (i : Nat) (l : List (Platform × String)) :
    (enumFrom i l).map (fun x => x.2.2) = l.map Prod.snd := by
  induction l generalizing i with
  | nil => rfl
  | cons x xs ih => simp [enumFrom, ih]

/-- C3: for a message with at least one extracted link, one lookup is
performed per link in link order; each failing lookup is logged without
aborting its sibling lookups; the successful results used for formatting
are joined back by original link index (their indices are strictly
increasing, i.e. original occurrence order regardless of completion order);
and if zero lookups succeed, no reply is sent and no deletion attempted. -/
theorem lookup_fanout_properties (msg : InMessage)
    (f : String → Except String AggregationResult) (rOk dOk : Bool)
    (hskip : hasSkipMark msg.text = false)
    (hne : (extract_links msg.text).isEmpty = false) :
    (processMessage msg f rOk dOk).filterMap
        (fun e => match e with | Event.lookup u => some u | _ => none) =
      (extract_links msg.text).map Prod.snd ∧
    (∀ pu ∈ extract_links msg.text, (∃ err, f pu.2 = Except.error err) →
      Event.log ("Cannot resolve URL: " ++ pu.2) ∈ processMessage msg f rOk dOk) ∧
    List.Pairwise (fun a b => a < b)
      (((doLookups f (enumFrom 1 (extract_links msg.text))).2).map Prod.fst) ∧
    (doLookups f (enumFrom 1 (extract_links msg.text))).2 =
      (enumFrom 1 (extract_links msg.text)).filterMap
        (fun x => match f x.2.2 with
                  | Except.ok r => some (x.1, r)
                  | Except.error _ => none) ∧
    (rOk = true → ((doLookups f (enumFrom 1 (extract_links msg.text))).2).isEmpty = false →
      Event.reply (composeReply msg (doLookups f (enumFrom 1 (extract_links msg.text))).2)
          "HTML" ∈ processMessage msg f rOk dOk) ∧
    ((∀ pu ∈ extract_links msg.text, ∀ r, f pu.2 ≠ Except.ok r) →
      (∀ t pm, Event.reply t pm ∉ processMessage msg f rOk dOk) ∧
      Event.deleteMsg ∉ processMessage msg f rOk dOk) := by
  refine ⟨?_, ?_, ?_, doLookups_successes f _, ?_, ?_⟩
  · rw [processMessage_eq_of_links msg f rOk dOk hskip hne, List.filterMap_append]
    have hB :
        (if ((doLookups f (enumFrom 1 (extract_links msg.text))).2).isEmpty then []
         else if rOk then
           Event.reply
               (composeReply msg (doLookups f (enumFrom 1 (extract_links msg.text))).2)
               "HTML" ::
             (match msg.chat with
              | ChatKind.privateChat => []
              | ChatKind.groupChat =>
                Event.deleteMsg ::
                  (if dOk then [] else [Event.log "Cannot delete message"]))
         else [Event.sendFailed]).filterMap
            (fun e => match e with | Event.lookup u => some u | _ => none) = [] := by
      by_cases hS : ((doLookups f (enumFrom 1 (extract_links msg.text))).2).isEmpty = true
      · rw [if_pos hS]
        rfl
      · rw [if_neg hS]
        cases rOk with
        | false => rfl
        | true =>
          rw [if_pos rfl]
          cases msg.chat with
          | privateChat => rfl
          | groupChat => cases dOk <;> rfl
    rw [hB, List.append_nil, doLookups_lookup_urls, enumFrom_map_sndsnd]
  · intro pu hpu herr
    obtain ⟨err, he⟩ := herr
    obtain ⟨j, hj⟩ := enumFrom_mem_of_mem (extract_links msg.text) pu hpu 1
    have hlog := doLookups_failure_logged f (enumFrom 1 (extract_links msg.text)) (j, pu) hj err he
    rw [processMessage_eq_of_links msg f rOk dOk hskip hne]
    exact List.mem_append_left _ hlog
  · exact List.Pairwise.sublist
      (doLookups_successes_fst_sublist f (enumFrom 1 (extract_links msg.text)))
      (enumFrom_fst_pairwise 1 (extract_links msg.text))
  · intro h4 h5
    exact (processMessage_reply_mem msg f rOk dOk _ _).mpr ⟨hskip, hne, h5, h4, rfl, rfl⟩
  · intro hall
    have hS : (doLookups f (enumFrom 1 (extract_links msg.text))).2 = [] := by
      rw [doLookups_successes]
      rw [List.filterMap_eq_nil_iff]
      intro x hx
      cases hf : f x.2.2 with
      | ok r => exact absurd hf (hall x.2 (enumFrom_mem_snd (extract_links msg.text) x 1 hx) r)
      | error e => simp [hf]
    constructor
    · intro t pm hmem
      have hh := (processMessage_reply_mem msg f rOk dOk t pm).mp hmem
      rw [hS] at hh
      simp at hh
    · intro hmem
      have hh := (processMessage_delete_mem msg f rOk dOk).mp hmem
      rw [hS] at hh
      simp at hh

/-- C3 witness: the two-link message whose first (SoundCloud) link fails to
resolve — the failure is logged, and only the second link's result, with
its original index 2, feeds the reply. -/
theorem lookup_fanout_properties_witness :
    Event.log ("Cannot resolve URL: " ++ "https://soundcloud.com/artist/track") ∈
      processMessage twoMsg testLookup true true ∧
    (doLookups testLookup (enumFrom 1 (extract_links twoMsg.text))).2 =
      [(2, testResult)] := by
  have h := lookup_fanout_properties twoMsg testLookup true true (by decide) (by decide)
  exact ⟨h.2.1 (soundcloudP, "https://soundcloud.com/artist/track") (by decide)
      ⟨"https://soundcloud.com/artist/track", rfl⟩,
    by decide⟩

/-- C6: for a group-chat message with at least one successful lookup, the
reply begins with `@<sender> wrote: ` followed by the original text with
each recognized link replaced by its bracketed index, then a blank line,
then the numbered per-link entries; each entry's platform links are
rendered by `formatEntryBody`, which joins them with a vertical-bar
separator in the fixed priority display order (`sortLinks` output is
sorted by display priority). -/
theorem group_reply_format (msg : InMessage)
    (f : String → Except String AggregationResult) (dOk : Bool) (rs : List SongLink)
    (hchat : msg.chat = ChatKind.groupChat)
    (hskip : hasSkipMark msg.text = false)
    (hne : (extract_links msg.text).isEmpty = false)
    (hsucc : ((doLookups f (enumFrom 1 (extract_links msg.text))).2).isEmpty = false) :
    Event.reply
        ("@" ++ msg.username ++ " wrote: " ++ renderText (replaceLinksFrom 1 msg.text) ++
          "\n\n" ++
          String.intercalate "\n"
            (((doLookups f (enumFrom 1 (extract_links msg.text))).2).map
              (fun ir => toString ir.1 ++ ". " ++ formatEntryBody ir.2)))
        "HTML" ∈ processMessage msg f true dOk ∧
    List.Sorted linkLE (sortLinks rs) := by
  constructor
  · refine (processMessage_reply_mem msg f true dOk _ _).mpr ⟨hskip, hne, hsucc, rfl, ?_, rfl⟩
    simp only [composeReply, hchat, composeEntries, formatEntry]
  · exact List.sorted_insertionSort linkLE rs

/-- C6 witness: the group-chat test fixture reproduces the exact reply
string asserted by `test_replies_to_group_message`, and the test result's
links are priority-sorted. -/
theorem group_reply_format_witness :
    Event.reply
        "@test_user wrote: checkout this one: [1]\n\n1. Test Artist - Test Title\n<a href=\"https://www.test.com/test\">Deezer</a> | <a href=\"https://www.test.com/test\">Google Music</a>"
        "HTML" ∈ processMessage grpMsg testLookup true true ∧
    List.Sorted linkLE (sortLinks testResult.links) := by
  have h := group_reply_format grpMsg testLookup true testResult.links rfl (by decide)
    (by decide) (by decide)
  exact h
